import Mathlib

/-!
Shallow embedding of the Daily Thought Chain backend
(src/thought_backend/src/api/main.py, init_db.py, clear_thoughts_once.py).

The SQLite database is modelled as an explicit state (`SchemaState`) holding
the schema flags that `_ensure_schema` inspects via PRAGMA queries, the
`thoughts` rows and the `thought_token_guard` rows.  Each HTTP handler becomes
a pure function from a state (plus the values of the clock reads it performs)
to a result and a new state.
-/

namespace ThoughtChain

/-- Value stored in the `created_at` column: either a TEXT timestamp or SQL
NULL (legacy rows may lack a value).  `main.py` branches on
`isinstance(created_val, str)`. -/
inductive CreatedVal where
  | vStr (s : String)
  | vNull
deriving DecidableEq

/-- Python `str(created_val)`: a string renders verbatim, SQL NULL arrives in
Python as `None`. -/
def py_str : CreatedVal → String
  | .vStr s => s
  | .vNull => "None"

/-- Decide whether a character is an ASCII digit. -/
def is_digit (c : Char) : Bool := decide ('0' ≤ c ∧ c ≤ '9')

/-- Recognise `HH:MM:SS` character lists. -/
def time_chars : List Char → Bool
  | [h1, h2, ':', n1, n2, ':', s1, s2] =>
      is_digit h1 && is_digit h2 && is_digit n1 && is_digit n2 && is_digit s1 && is_digit s2
  | _ => false

/-- Recognise the timestamp shapes SQLite date functions accept here:
`YYYY-MM-DD` alone or followed by a space or `T` and `HH:MM:SS`. -/
def sqlite_date_chars : List Char → Bool
  | [y1, y2, y3, y4, '-', m1, m2, '-', d1, d2] =>
      is_digit y1 && is_digit y2 && is_digit y3 && is_digit y4
        && is_digit m1 && is_digit m2 && is_digit d1 && is_digit d2
  | y1 :: y2 :: y3 :: y4 :: '-' :: m1 :: m2 :: '-' :: d1 :: d2 :: sep :: rest =>
      is_digit y1 && is_digit y2 && is_digit y3 && is_digit y4
        && is_digit m1 && is_digit m2 && is_digit d1 && is_digit d2
        && (sep = ' ' || sep = 'T') && time_chars rest
  | _ => false

/-- Model of SQLite `date(X)` on the values this service stores: the
`YYYY-MM-DD` part of a well-formed timestamp, SQL NULL (here `none`) on NULL
or malformed input. -/
def sqlite_date : CreatedVal → Option String
  | .vNull => none
  | .vStr s => if sqlite_date_chars s.data then some (String.mk (s.data.take 10)) else none

/-- Model of SQLite `datetime(X)` used only as the ORDER BY sort key in the
listing query: NULL (`none`) for NULL or malformed values, which SQLite sorts
before all strings. -/
def sqlite_datetime_key : CreatedVal → Option String
  | .vNull => none
  | .vStr s => if sqlite_date_chars s.data then some s else none

/-- Recognise the ISO shapes relevant here: `YYYY-MM-DD` or
`YYYY-MM-DDTHH:MM:SS`. -/
def iso_chars : List Char → Bool
  | [y1, y2, y3, y4, '-', m1, m2, '-', d1, d2] =>
      is_digit y1 && is_digit y2 && is_digit y3 && is_digit y4
        && is_digit m1 && is_digit m2 && is_digit d1 && is_digit d2
  | y1 :: y2 :: y3 :: y4 :: '-' :: m1 :: m2 :: '-' :: d1 :: d2 :: 'T' :: rest =>
      is_digit y1 && is_digit y2 && is_digit y3 && is_digit y4
        && is_digit m1 && is_digit m2 && is_digit d1 && is_digit d2
        && time_chars rest
  | _ => false

/-- Model of Python `datetime.fromisoformat` composed with
`dt.replace(tzinfo=timezone.utc).isoformat()` as used in
`_row_to_thought_out`: succeeds on the ISO shapes the service encounters and
appends the UTC offset; fails (returns `none`, i.e. raises in Python) on
anything else. -/
def py_fromisoformat_utc (s : String) : Option String :=
  if iso_chars s.data then
    some (if s.data.length = 10 then s ++ "T00:00:00+00:00" else s ++ "+00:00")
  else none

/-- Python `created_val.replace(" ", "T")` for the single-character arguments
used in `_row_to_thought_out`: character-wise substitution. -/
def py_replace_space_t (s : String) : String :=
  String.mk (s.data.map fun c => if c = ' ' then 'T' else c)

/-- Decide whether a character is stripped by Python `str.strip()`. -/
def is_space_char (c : Char) : Bool := c = ' ' || c = '\t' || c = '\n' || c = '\r'

/-- Model of Python `str.strip()`: drop leading and trailing whitespace. -/
def py_strip (s : String) : String :=
  String.mk (((s.data.dropWhile is_space_char).reverse.dropWhile is_space_char).reverse)

/-- Python `a or b or ""` on two optional strings: first truthy (non-None,
non-empty) value, else the empty string.  Used for
`(x_edit_token or token or "")` in the update and delete handlers. -/
def py_or (a b : Option String) : String :=
  match a with
  | some s => if s = "" then (match b with | some t => if t = "" then "" else t | none => "") else s
  | none => match b with | some t => if t = "" then "" else t | none => ""

/-- Row of the `thoughts` table.  `edit_token`, `updated_at` and `token` are
nullable columns added by the idempotent ALTERs in `_ensure_schema`. -/
structure ThoughtRow where
  id : Nat
  username : String
  thought_text : String
  created_at : CreatedVal
  edit_token : Option String
  updated_at : Option String
  token : Option String
deriving DecidableEq

/-- Row of the `thought_token_guard` side table, with UNIQUE(thought_id) and
UNIQUE(token, day_key) constraints. -/
structure GuardRow where
  thought_id : Nat
  token : String
  day_key : String
deriving DecidableEq

/-- State of the SQLite database: the schema facts that `_column_exists`,
`_index_exists` and `CREATE TABLE IF NOT EXISTS` query, the AUTOINCREMENT
counter, and the rows of both tables. -/
structure SchemaState where
  thoughtsTable : Bool
  colEditToken : Bool
  colUpdatedAt : Bool
  colToken : Bool
  guardTable : Bool
  idxCreatedAt : Bool
  idxToken : Bool
  nextId : Nat
  thoughts : List ThoughtRow
  guard : List GuardRow
deriving DecidableEq

/-- Embedding of `_ensure_schema` (main.py lines 110-155): create the
`thoughts` table if absent (`CREATE TABLE IF NOT EXISTS`, an empty table with
a fresh AUTOINCREMENT counter), add each missing column (the guarded
`ALTER TABLE ... ADD COLUMN` calls, which leave existing rows untouched),
create the guard table if absent, and create each missing index.  Each
feature is detected independently via PRAGMA queries (`_column_exists`,
`_index_exists`) and touched only when absent, so existing rows and columns
are never rewritten. -/
def _ensure_schema (s : SchemaState) : SchemaState :=
  { thoughtsTable := true,
    colEditToken := true, colUpdatedAt := true, colToken := true,
    guardTable := true, idxCreatedAt := true, idxToken := true,
    nextId := if s.thoughtsTable then s.nextId else 1,
    thoughts := if s.thoughtsTable then s.thoughts else [],
    guard := if s.guardTable then s.guard else [] }

/-- Embedding of `upgrade_database` (init_db.py): it opens a connection and
delegates to `_ensure_schema`. -/
def upgrade_database (s : SchemaState) : SchemaState := _ensure_schema s

/-- Outgoing thought object (`ThoughtOut` in main.py): listing never exposes
`edit_token` or `token`. -/
structure ThoughtOut where
  id : Nat
  username : String
  thought_text : String
  created_at : String
deriving DecidableEq

/-- Embedding of `_row_to_thought_out` (main.py lines 230-253): normalise a
string `created_at` to ISO UTC when it parses; on any parse failure, or on a
non-string value, fall back to Python `str(created_val)`. -/
def _row_to_thought_out (r : ThoughtRow) : ThoughtOut :=
  match r.created_at with
  | .vStr s =>
      match py_fromisoformat_utc (py_replace_space_t s) with
      | some iso =>
          { id := r.id, username := r.username, thought_text := r.thought_text, created_at := iso }
      | none =>
          { id := r.id, username := r.username, thought_text := r.thought_text, created_at := s }
  | .vNull =>
      { id := r.id, username := r.username, thought_text := r.thought_text,
        created_at := py_str .vNull }

/-- Values of the clock reads a single create request performs.  The source
reads the clock three separate times: SQLite `date('now')` inside the
duplicate-check SQL, the `CURRENT_TIMESTAMP` default stamped on the inserted
row, and Python `datetime.utcnow()` inside `_day_key_utc_now`. -/
structure Clock where
  checkDay : String
  insertTs : String
  pyDay : String

/-- Embedding of `_day_key_utc_now` (main.py lines 256-259): the Python-side
UTC day string, a clock read independent of the two SQLite reads. -/
def _day_key_utc_now (c : Clock) : String := c.pyDay

/-- Result of the create handler.  `created` carries the fetched row as
returned plus the minted edit token (`ThoughtCreatedResponse`). -/
inductive CreateResult where
  | created (t : ThoughtOut) (editTok : String)
  | invalid (msg : String)
  | duplicate
  | serverError
deriving DecidableEq

/-- True exactly on the 201 outcome of a create call. -/
def CreateResult.isSuccess : CreateResult → Bool
  | .created _ _ => true
  | _ => false

/-- The application-level duplicate check (main.py lines 362-373): a stored
row with this token whose `date(created_at)` equals `date('now')`. -/
def dup_check (l : List ThoughtRow) (tok day : String) : Bool :=
  l.any fun r => decide (r.token = some tok) && decide (sqlite_date r.created_at = some day)

/-- The guard-row membership test behind `INSERT OR IGNORE INTO
thought_token_guard`: the insert is skipped when either UNIQUE(thought_id) or
UNIQUE(token, day_key) is already taken. -/
def guard_conflict (l : List GuardRow) (newId : Nat) (tok day : String) : Bool :=
  l.any fun g => decide (g.thought_id = newId) || (decide (g.token = tok) && decide (g.day_key = day))

/-- The write half of the create handler (main.py lines 381-401): insert the
thought row, then `INSERT OR IGNORE` the guard row, then commit.  Returns the
new row id and the committed state. -/
def insert_phase (st : SchemaState) (c : Clock) (username thoughtText anonToken editToken : String) :
    Nat × SchemaState :=
  let newId := st.nextId
  let row : ThoughtRow :=
    { id := newId, username := username, thought_text := thoughtText,
      created_at := .vStr c.insertTs, edit_token := some editToken,
      updated_at := none, token := some anonToken }
  let st2 := { st with nextId := newId + 1, thoughts := st.thoughts ++ [row] }
  let dayKey := _day_key_utc_now c
  let st3 :=
    if guard_conflict st2.guard newId anonToken dayKey then st2
    else { st2 with guard := st2.guard ++ [{ thought_id := newId, token := anonToken, day_key := dayKey }] }
  (newId, st3)

/-- The post-commit fetch of the inserted row (main.py lines 404-419),
including the defensive 500 branch when the row cannot be re-read. -/
def fetch_created (st : SchemaState) (newId : Nat) (editToken : String) : CreateResult :=
  match st.thoughts.find? (fun r => decide (r.id = newId)) with
  | none => .serverError
  | some r => .created (_row_to_thought_out r) editToken

/-- Embedding of `create_thought` (main.py lines 326-421): validation of the
trimmed inputs, `_ensure_schema`, the application-level duplicate pre-check
against `date('now')`, then the insert phase and the fetch of the created
row.  `editToken` stands for the `secrets.token_urlsafe(16)` value minted
before the transaction. -/
def create_thought (st : SchemaState) (c : Clock)
    (usernameRaw textRaw tokenRaw editToken : String) : CreateResult × SchemaState :=
  let username := py_strip usernameRaw
  let thoughtText := py_strip textRaw
  let anonToken := py_strip tokenRaw
  if username = "" then (.invalid "Username cannot be empty.", st)
  else if 50 < username.length then (.invalid "Username must be at most 50 characters.", st)
  else if thoughtText = "" then (.invalid "Thought text cannot be empty.", st)
  else if 500 < thoughtText.length then (.invalid "Thought text must be at most 500 characters.", st)
  else if anonToken = "" then (.invalid "Token is required.", st)
  else if anonToken.length < 8 ∨ 200 < anonToken.length then
    (.invalid "Token length must be between 8 and 200 characters.", st)
  else
    let st1 := _ensure_schema st
    if dup_check st1.thoughts anonToken c.checkDay then (.duplicate, st1)
    else
      let p := insert_phase st1 c username thoughtText anonToken editToken
      (fetch_created p.2 p.1 editToken, p.2)

/-- Result of the update handler. -/
inductive UpdateResult where
  | ok (t : ThoughtOut)
  | badRequest (msg : String)
  | forbidden (msg : String)
  | notFound
  | serverError
deriving DecidableEq

/-- True exactly on the 403 outcome of an update call. -/
def UpdateResult.isForbidden : UpdateResult → Bool
  | .forbidden _ => true
  | _ => false

/-- Embedding of `update_thought` (main.py lines 441-504): resolve the
provided credential from header or query, validate the new text, find the
row, compare the stored `edit_token`, then rewrite `thought_text` and stamp
`updated_at` with the `CURRENT_TIMESTAMP` read `nowTs`. -/
def update_thought (st : SchemaState) (thoughtId : Nat) (textRaw : String)
    (xEditToken tokenQ : Option String) (nowTs : String) : UpdateResult × SchemaState :=
  let provided := py_strip (py_or xEditToken tokenQ)
  if provided = "" then (.forbidden "Missing edit token.", st)
  else
    let newText := py_strip textRaw
    if newText = "" ∨ 500 < newText.length then
      (.badRequest "Invalid thought_text (1..500 chars required).", st)
    else
      let st1 := _ensure_schema st
      match st1.thoughts.find? (fun r => decide (r.id = thoughtId)) with
      | none => (.notFound, st1)
      | some row =>
        if row.edit_token ≠ some provided then (.forbidden "Invalid edit token.", st1)
        else
          let st2 := { st1 with thoughts := st1.thoughts.map fun r =>
            if r.id = thoughtId then { r with thought_text := newText, updated_at := some nowTs } else r }
          match st2.thoughts.find? (fun r => decide (r.id = thoughtId)) with
          | none => (.serverError, st2)
          | some r2 => (.ok (_row_to_thought_out r2), st2)

/-- Result of the delete handler. -/
inductive DeleteResult where
  | noContent
  | forbidden (msg : String)
  | notFound
deriving DecidableEq

/-- Embedding of `delete_thought` (main.py lines 522-560): resolve the
credential, find the row, compare the stored `edit_token`, then delete the
row from `thoughts`.  The handler issues no delete against
`thought_token_guard`. -/
def delete_thought (st : SchemaState) (thoughtId : Nat)
    (xEditToken tokenQ : Option String) : DeleteResult × SchemaState :=
  let provided := py_strip (py_or xEditToken tokenQ)
  if provided = "" then (.forbidden "Missing edit token.", st)
  else
    let st1 := _ensure_schema st
    match st1.thoughts.find? (fun r => decide (r.id = thoughtId)) with
    | none => (.notFound, st1)
    | some row =>
      if row.edit_token ≠ some provided then (.forbidden "Invalid edit token.", st1)
      else (.noContent, { st1 with thoughts := st1.thoughts.filter fun r => decide (r.id ≠ thoughtId) })

/-- Insert into a list sorted by `le`, keeping existing order among equals. -/
def insert_sorted (le : α → α → Bool) (x : α) : List α → List α
  | [] => [x]
  | y :: ys => if le x y then x :: y :: ys else y :: insert_sorted le x ys

/-- Insertion sort by `le`. -/
def sort_by (le : α → α → Bool) (l : List α) : List α :=
  l.foldr (insert_sorted le) []

/-- Lexicographic Bool-valued order on character lists. -/
def chars_le : List Char → List Char → Bool
  | [], _ => true
  | _ :: _, [] => false
  | a :: as, b :: bs => if a < b then true else if b < a then false else chars_le as bs

/-- Bool-valued order on strings, by their character lists. -/
def str_le (s t : String) : Bool := chars_le s.data t.data

/-- NULL-first order on optional datetime keys, modelling how SQLite sorts
the `datetime(created_at)` expression ascending. -/
def key_le : Option String → Option String → Bool
  | none, _ => true
  | some _, none => false
  | some s, some t => str_le s t

/-- The ORDER BY key of the listing query: `datetime(created_at) ASC, id ASC`. -/
def row_le (a b : ThoughtRow) : Bool :=
  let ka := sqlite_datetime_key a.created_at
  let kb := sqlite_datetime_key b.created_at
  if ka = kb then decide (a.id ≤ b.id) else key_le ka kb

/-- Embedding of `list_thoughts` (main.py lines 284-304): ensure the schema,
scan all rows ordered by `datetime(created_at) ASC, id ASC`, and convert each
through `_row_to_thought_out`. -/
def list_thoughts (st : SchemaState) : List ThoughtOut :=
  (sort_by row_le (_ensure_schema st).thoughts).map _row_to_thought_out

/-- Result of the maintenance clear call. -/
inductive ClearResult where
  | ok
  | rejected
deriving DecidableEq

/-- Modelled from the spec: the core `clearAll()` operation (spec section 4.4)
invoked by the maintenance route.  Its backend implementation is not among
the files under src (only its client, `run_clear` in clear_thoughts_once.py,
is); per the spec it deletes all Thought and DailyClaim rows. -/
def clearAll (st : SchemaState) : SchemaState :=
  { st with thoughts := [], guard := [] }

/-- Modelled from the spec: the route `DELETE /admin/dev/clear-thoughts`
(spec section 6 and the `run_clear` client docstring).  The backend route is
not among the files under src; per the spec it performs `clearAll()` and is
reachable only while the operator-set enablement flag (DEV_MAINTENANCE in
the client docstring) is active in the running process, rejecting every call
otherwise. -/
def admin_clear_thoughts (devMaintenance : Bool) (st : SchemaState) : ClearResult × SchemaState :=
  if devMaintenance then (.ok, clearAll st) else (.rejected, st)

/-- A database file never touched by this code base: no tables, no rows. -/
def freshDB : SchemaState :=
  { thoughtsTable := false, colEditToken := false, colUpdatedAt := false,
    colToken := false, guardTable := false, idxCreatedAt := false,
    idxToken := false, nextId := 1, thoughts := [], guard := [] }

/-- The state after the first `_ensure_schema` run on a fresh database. -/
def initState : SchemaState := _ensure_schema freshDB

/-- Number of stored thoughts with this owner token whose
`date(created_at)` is this day: the quantity the daily-uniqueness invariant
bounds. -/
def dupCount (st : SchemaState) (tok day : String) : Nat :=
  st.thoughts.countP fun r => decide (r.token = some tok) && decide (sqlite_date r.created_at = some day)

/-- States reachable by the service from a fresh database.  Each create step
carries the clock model: every stored timestamp was read before the request's
`date('now')` (so its day is not later), and the request's `CURRENT_TIMESTAMP`
is read after its `date('now')` (so its day is not earlier). -/
inductive Reachable : SchemaState → Prop where
  | init : Reachable initState
  | create (st : SchemaState) (c : Clock) (u x tok etok : String) :
      Reachable st →
      (∀ r ∈ st.thoughts, ∀ d, sqlite_date r.created_at = some d → str_le d c.checkDay = true) →
      (∀ d, sqlite_date (.vStr c.insertTs) = some d → str_le c.checkDay d = true) →
      Reachable (create_thought st c u x tok etok).2
  | update (st : SchemaState) (id : Nat) (txt : String) (x q : Option String) (now : String) :
      Reachable st → Reachable (update_thought st id txt x q now).2
  | delete (st : SchemaState) (id : Nat) (x q : Option String) :
      Reachable st → Reachable (delete_thought st id x q).2
  | clear (st : SchemaState) (flag : Bool) :
      Reachable st → Reachable (admin_clear_thoughts flag st).2

/-- All schema features are present: the situation after any
`_ensure_schema` run. -/
def AllFlags (s : SchemaState) : Prop :=
  s.thoughtsTable = true ∧ s.colEditToken = true ∧ s.colUpdatedAt = true ∧
  s.colToken = true ∧ s.guardTable = true ∧ s.idxCreatedAt = true ∧ s.idxToken = true

lemma allFlags_ensure (s : SchemaState) : AllFlags (_ensure_schema s) := by
  simp [AllFlags, _ensure_schema]

lemma ensure_eq_of_allFlags (s : SchemaState) (h : AllFlags s) : _ensure_schema s = s := by
  obtain ⟨h1, h2, h3, h4, h5, h6, h7⟩ := h
  cases s
  simp_all [_ensure_schema]

lemma ensure_thoughts_of_table (s : SchemaState) (h : s.thoughtsTable = true) :
    (_ensure_schema s).thoughts = s.thoughts := by
  simp [_ensure_schema, h]

lemma allFlags_insert_phase (s : SchemaState) (c : Clock) (u t a e : String)
    (h : AllFlags s) : AllFlags (insert_phase s c u t a e).2 := by
  simp only [insert_phase]
  split <;> simpa [AllFlags] using h

lemma reachable_allFlags {st : SchemaState} (h : Reachable st) : AllFlags st := by
  induction h with
  | init => exact allFlags_ensure freshDB
  | create st c u x tok etok hst hmono hord ih =>
      have he := allFlags_ensure st
      have hip := allFlags_insert_phase (_ensure_schema st) c (py_strip u) (py_strip x)
        (py_strip tok) etok he
      simp only [create_thought]
      repeat' split
      all_goals first | exact ih | exact he | exact hip
  | update st tid txt xh q now hst ih =>
      have he := allFlags_ensure st
      simp only [update_thought]
      repeat' split
      all_goals first | exact ih | exact he
  | delete st tid xh q hst ih =>
      have he := allFlags_ensure st
      simp only [delete_thought]
      repeat' split
      all_goals first | exact ih | exact he
  | clear st flag hst ih =>
      simp only [admin_clear_thoughts, clearAll]
      split
      · simpa [AllFlags] using ih
      · exact ih

lemma reachable_ensure_eq {st : SchemaState} (h : Reachable st) : _ensure_schema st = st :=
  ensure_eq_of_allFlags st (reachable_allFlags h)

lemma mem_insert_sorted {le : α → α → Bool} {x a : α} :
    ∀ {l : List α}, a ∈ insert_sorted le x l ↔ a = x ∨ a ∈ l := by
  intro l
  induction l with
  | nil => simp [insert_sorted]
  | cons y ys ih =>
      simp only [insert_sorted]
      split
      · simp [List.mem_cons]
      · simp only [List.mem_cons, ih]
        tauto

lemma mem_sort_by {le : α → α → Bool} {a : α} :
    ∀ {l : List α}, a ∈ sort_by le l ↔ a ∈ l := by
  intro l
  induction l with
  | nil => simp [sort_by]
  | cons y ys ih =>
      show a ∈ insert_sorted le y (sort_by le ys) ↔ _
      rw [mem_insert_sorted]
      simp [ih]

lemma length_insert_sorted {le : α → α → Bool} {x : α} :
    ∀ {l : List α}, (insert_sorted le x l).length = l.length + 1 := by
  intro l
  induction l with
  | nil => rfl
  | cons y ys ih =>
      simp only [insert_sorted]
      split
      · rfl
      · simp [ih]

lemma length_sort_by {le : α → α → Bool} :
    ∀ {l : List α}, (sort_by le l).length = l.length := by
  intro l
  induction l with
  | nil => rfl
  | cons y ys ih =>
      show (insert_sorted le y (sort_by le ys)).length = _
      rw [length_insert_sorted, ih]
      rfl

lemma countP_filter_le (l : List α) (p q : α → Bool) :
    (l.filter q).countP p ≤ l.countP p := by
  induction l with
  | nil => simp
  | cons a l ih =>
      by_cases hq : q a <;> by_cases hp : p a <;>
        simp [List.filter_cons, List.countP_cons, hq, hp] <;> omega

lemma two_le_countP {l : List α} {p : α → Bool} {a b : α} (ha : a ∈ l) (hb : b ∈ l)
    (hab : a ≠ b) (hpa : p a = true) (hpb : p b = true) : 2 ≤ l.countP p := by
  induction l with
  | nil => cases ha
  | cons x xs ih =>
      rcases List.mem_cons.mp ha with rfl | ha'
      · rcases List.mem_cons.mp hb with rfl | hb'
        · exact absurd rfl hab
        · have h1 : 0 < xs.countP p := List.countP_pos_iff.mpr ⟨b, hb', hpb⟩
          have h2 : (a :: xs).countP p = xs.countP p + 1 := by
            simp [List.countP_cons, hpa]
          omega
      · rcases List.mem_cons.mp hb with rfl | hb'
        · have h1 : 0 < xs.countP p := List.countP_pos_iff.mpr ⟨a, ha', hpa⟩
          have h2 : (b :: xs).countP p = xs.countP p + 1 := by
            simp [List.countP_cons, hpb]
          omega
        · have h2 := ih ha' hb'
          have h3 : xs.countP p ≤ xs.countP p + (if p x then 1 else 0) := Nat.le_add_right _ _
          rw [List.countP_cons]
          exact le_trans h2 h3

lemma countP_map_eq (l : List α) (f : α → α) (p : α → Bool) (h : ∀ a, p (f a) = p a) :
    (l.map f).countP p = l.countP p := by
  induction l with
  | nil => rfl
  | cons a l ih => simp [List.countP_cons, h, ih]

lemma chars_le_antisymm : ∀ {a b : List Char}, chars_le a b = true → chars_le b a = true → a = b := by
  intro a
  induction a with
  | nil =>
      intro b h1 h2
      cases b with
      | nil => rfl
      | cons y ys => simp [chars_le] at h2
  | cons x xs ih =>
      intro b h1 h2
      cases b with
      | nil => simp [chars_le] at h1
      | cons y ys =>
          simp only [chars_le] at h1 h2
          by_cases hxy : x < y
          · simp [hxy, lt_asymm hxy] at h2
          · by_cases hyx : y < x
            · simp [hyx, hxy] at h1
            · have hx : x = y := le_antisymm (not_lt.mp hyx) (not_lt.mp hxy)
              subst hx
              simp [lt_irrefl] at h1 h2
              rw [ih h1 h2]

lemma str_le_antisymm {s t : String} (h1 : str_le s t = true) (h2 : str_le t s = true) : s = t := by
  cases s with
  | mk a =>
      cases t with
      | mk b =>
          simp only [str_le] at h1 h2
          exact congrArg String.mk (chars_le_antisymm h1 h2)

lemma dup_check_iff {l : List ThoughtRow} {tok day : String} :
    dup_check l tok day = true ↔
      ∃ r ∈ l, r.token = some tok ∧ sqlite_date r.created_at = some day := by
  simp [dup_check, List.any_eq_true, Bool.and_eq_true, decide_eq_true_eq]

lemma dupCount_ensure_le (s : SchemaState) (tok day : String) :
    dupCount (_ensure_schema s) tok day ≤ dupCount s tok day := by
  simp only [dupCount, _ensure_schema]
  split <;> simp

lemma insert_phase_thoughts (s : SchemaState) (c : Clock) (u t a e : String) :
    ((insert_phase s c u t a e).2).thoughts =
      s.thoughts ++
        [{ id := s.nextId, username := u, thought_text := t,
           created_at := .vStr c.insertTs, edit_token := some e,
           updated_at := none, token := some a }] := by
  simp only [insert_phase]
  split <;> rfl

/-- Preservation of the daily-uniqueness bound along every reachable state:
at most one stored thought per (ownerToken, dayKey) pair. -/
theorem dupCount_le_one {st : SchemaState} (h : Reachable st) (tok day : String) :
    dupCount st tok day ≤ 1 := by
  induction h with
  | init => simp [dupCount, initState, _ensure_schema, freshDB]
  | create st c u x tokRaw etok hst hmono hord ih =>
      simp only [create_thought]
      split
      · exact ih
      split
      · exact ih
      split
      · exact ih
      split
      · exact ih
      split
      · exact ih
      split
      · exact ih
      split
      · exact le_trans (dupCount_ensure_le st tok day) ih
      · rename_i hnotdup
        show dupCount (insert_phase (_ensure_schema st) c (py_strip u) (py_strip x)
          (py_strip tokRaw) etok).2 tok day ≤ 1
        rw [dupCount, insert_phase_thoughts, List.countP_append]
        by_cases hcase : py_strip tokRaw = tok ∧ sqlite_date (.vStr c.insertTs) = some day
        · obtain ⟨htokeq, hdayeq⟩ := hcase
          have hzero : List.countP
              (fun r => decide (r.token = some tok) && decide (sqlite_date r.created_at = some day))
              (_ensure_schema st).thoughts = 0 := by
            rw [List.countP_eq_zero]
            intro r hr hp
            rw [Bool.and_eq_true, decide_eq_true_eq, decide_eq_true_eq] at hp
            obtain ⟨hrtok, hrday⟩ := hp
            by_cases htbl : st.thoughtsTable = true
            · rw [ensure_thoughts_of_table st htbl] at hr
              have hle2 : str_le day c.checkDay = true := hmono r hr day hrday
              have hle1 : str_le c.checkDay day = true := hord day hdayeq
              have hdc : day = c.checkDay := str_le_antisymm hle2 hle1
              apply hnotdup
              rw [dup_check_iff]
              refine ⟨r, ?_, ?_, ?_⟩
              · rw [ensure_thoughts_of_table st htbl]
                exact hr
              · rw [hrtok, htokeq]
              · rw [hrday, hdc]
            · simp only [Bool.not_eq_true] at htbl
              simp [_ensure_schema, htbl] at hr
          rw [hzero]
          simp [List.countP_cons, htokeq, hdayeq]
        · have hone : List.countP
              (fun r => decide (r.token = some tok) && decide (sqlite_date r.created_at = some day))
              ([{ id := (_ensure_schema st).nextId, username := py_strip u,
                  thought_text := py_strip x, created_at := .vStr c.insertTs,
                  edit_token := some etok, updated_at := none,
                  token := some (py_strip tokRaw) }] : List ThoughtRow) = 0 := by
            rw [List.countP_eq_zero]
            intro b hb hp
            rw [List.mem_singleton] at hb
            subst hb
            rw [Bool.and_eq_true, decide_eq_true_eq, decide_eq_true_eq] at hp
            obtain ⟨hbtok, hbday⟩ := hp
            exact hcase ⟨Option.some.inj hbtok, hbday⟩
          rw [hone, Nat.add_zero]
          exact le_trans (dupCount_ensure_le st tok day) ih
  | update st tid txt xh q now hst ih =>
      simp only [update_thought]
      repeat' split
      any_goals exact ih
      any_goals exact le_trans (dupCount_ensure_le st tok day) ih
      all_goals
        simp only [dupCount]
        rw [countP_map_eq]
        · exact le_trans (dupCount_ensure_le st tok day) ih
        · intro a
          by_cases hid : a.id = tid <;> simp [hid]
  | delete st tid xh q hst ih =>
      simp only [delete_thought]
      repeat' split
      any_goals exact ih
      any_goals exact le_trans (dupCount_ensure_le st tok day) ih
      · simp only [dupCount]
        exact le_trans (countP_filter_le _ _ _) (le_trans (dupCount_ensure_le st tok day) ih)
  | clear st flag hst ih =>
      simp only [admin_clear_thoughts, clearAll]
      split
      · simp [dupCount]
      · exact ih

lemma find?_isSome_of_exists {l : List α} {p : α → Bool} (h : ∃ a ∈ l, p a = true) :
    ∃ b, l.find? p = some b := by
  induction l with
  | nil =>
      obtain ⟨a, ha, _⟩ := h
      cases ha
  | cons x xs ih =>
      by_cases hx : p x = true
      · exact ⟨x, by rw [List.find?_cons_of_pos _ hx]⟩
      · obtain ⟨a, ha, hpa⟩ := h
        rcases List.mem_cons.mp ha with rfl | ha'
        · exact absurd hpa hx
        · obtain ⟨b, hb⟩ := ih ⟨a, ha', hpa⟩
          refine ⟨b, ?_⟩
          rw [List.find?_cons_of_neg _ (by simpa using hx), hb]

/-- The converted row keeps the stored id. -/
lemma row_out_id (r : ThoughtRow) : (_row_to_thought_out r).id = r.id := by
  simp only [_row_to_thought_out]
  repeat' split
  all_goals rfl

/-- True exactly on the 403 outcome of a delete call. -/
def DeleteResult.isForbidden : DeleteResult → Bool
  | .forbidden _ => true
  | _ => false

lemma insert_phase_fst (s : SchemaState) (c : Clock) (u t a e : String) :
    (insert_phase s c u t a e).1 = s.nextId := rfl

/-- Characterisation of a successful delete call: correct credential, row
found, row removed from the thoughts table, guard untouched. -/
lemma delete_success (st : SchemaState) (tid : Nat) (provided : String) (r : ThoughtRow)
    (hne : provided ≠ "") (hprov : py_strip provided = provided)
    (hfind : (_ensure_schema st).thoughts.find? (fun row => decide (row.id = tid)) = some r)
    (hauth : r.edit_token = some provided) :
    delete_thought st tid (some provided) none =
      (.noContent, { _ensure_schema st with
        thoughts := (_ensure_schema st).thoughts.filter fun rr => decide (rr.id ≠ tid) }) := by
  have hpo : py_or (some provided) none = provided := by simp [py_or, hne]
  simp [delete_thought, hpo, hprov, hne, hfind, hauth]

/-- Validation passes and the pre-check finds no duplicate: the create call
returns 201. -/
lemma create_success_shape (st : SchemaState) (c : Clock) (u x tokRaw etok : String)
    (hu1 : py_strip u ≠ "") (hu2 : (py_strip u).length ≤ 50)
    (hx1 : py_strip x ≠ "") (hx2 : (py_strip x).length ≤ 500)
    (ht1 : 8 ≤ (py_strip tokRaw).length) (ht2 : (py_strip tokRaw).length ≤ 200)
    (hnd : dup_check (_ensure_schema st).thoughts (py_strip tokRaw) c.checkDay = false) :
    (create_thought st c u x tokRaw etok).1.isSuccess = true := by
  simp only [create_thought]
  rw [if_neg hu1, if_neg (not_lt.mpr hu2), if_neg hx1, if_neg (not_lt.mpr hx2),
    if_neg (fun hh : py_strip tokRaw = "" => by
      rw [hh] at ht1
      exact absurd ht1 (by decide)),
    if_neg (fun hor : (py_strip tokRaw).length < 8 ∨ 200 < (py_strip tokRaw).length =>
      hor.elim (fun hlt => absurd ht1 (not_le.mpr hlt)) (fun hgt => absurd ht2 (not_le.mpr hgt))),
    if_neg (fun hcon : dup_check _ _ _ = true => by rw [hnd] at hcon; cases hcon)]
  have hmemrow : ∃ a ∈ (insert_phase (_ensure_schema st) c (py_strip u) (py_strip x)
      (py_strip tokRaw) etok).2.thoughts,
      (fun rr => decide (rr.id = (_ensure_schema st).nextId)) a = true := by
    refine ⟨{ id := (_ensure_schema st).nextId, username := py_strip u,
              thought_text := py_strip x, created_at := .vStr c.insertTs,
              edit_token := some etok, updated_at := none,
              token := some (py_strip tokRaw) }, ?_, ?_⟩
    · rw [insert_phase_thoughts]
      exact List.mem_append_right _ (List.mem_singleton.mpr rfl)
    · simp
  obtain ⟨b, hb⟩ := find?_isSome_of_exists hmemrow
  show (fetch_created _ _ _).isSuccess = true
  rw [fetch_created, insert_phase_fst, hb]
  rfl

/-- Clock reads of a create request comfortably inside a UTC day: all three
reads agree. -/
def clockJune1 : Clock :=
  { checkDay := "2025-06-01", insertTs := "2025-06-01 10:00:00", pyDay := "2025-06-01" }

/-- State after one successful create on a fresh database. -/
def stAfterCreate : SchemaState :=
  (create_thought initState clockJune1 "alice" "hi" "tokentok12" "etok1").2

/-- State after deleting that thought with its correct edit token. -/
def stAfterDelete : SchemaState :=
  (delete_thought stAfterCreate 1 (some "etok1") none).2

lemma reachable_stAfterCreate : Reachable stAfterCreate := by
  apply Reachable.create initState clockJune1 "alice" "hi" "tokentok12" "etok1" Reachable.init
  · intro r hr
    exact absurd hr (List.not_mem_nil r)
  · intro d hd
    simp only [clockJune1] at hd ⊢
    have hds : sqlite_date (CreatedVal.vStr "2025-06-01 10:00:00") = some "2025-06-01" := by
      decide
    rw [hds] at hd
    injection hd with hd2
    subst hd2
    decide

lemma reachable_stAfterDelete : Reachable stAfterDelete :=
  Reachable.delete stAfterCreate 1 (some "etok1") none reachable_stAfterCreate

/-- C1: in every reachable state, at most one Thought row exists per
(ownerToken, dayKey(createdAt)) pair; in particular a second sequential
create call with a token that already has a thought on the current UTC day
yields DuplicateSubmission (409) and writes no Thought row - the state is
returned unchanged. -/
theorem c1_at_most_one_per_token_day {st : SchemaState} (h : Reachable st) (tok day : String) :
    dupCount st tok day ≤ 1 ∧
    (∀ (c : Clock) (u x tokRaw etok : String),
      (∃ r ∈ st.thoughts, r.token = some tok ∧ sqlite_date r.created_at = some day) →
      py_strip tokRaw = tok → c.checkDay = day →
      py_strip u ≠ "" → (py_strip u).length ≤ 50 →
      py_strip x ≠ "" → (py_strip x).length ≤ 500 →
      8 ≤ (py_strip tokRaw).length → (py_strip tokRaw).length ≤ 200 →
      create_thought st c u x tokRaw etok = (.duplicate, st)) := by
  refine ⟨dupCount_le_one h tok day, ?_⟩
  intro c u x tokRaw etok hex htok hday hu1 hu2 hx1 hx2 ht1 ht2
  have hens := reachable_ensure_eq h
  have hdct : dup_check (_ensure_schema st).thoughts (py_strip tokRaw) c.checkDay = true := by
    rw [hens, dup_check_iff]
    obtain ⟨r, hr, hrt, hrd⟩ := hex
    exact ⟨r, hr, by rw [hrt, htok], by rw [hrd, hday]⟩
  simp only [create_thought]
  rw [if_neg hu1, if_neg (not_lt.mpr hu2), if_neg hx1, if_neg (not_lt.mpr hx2),
    if_neg (fun hh : py_strip tokRaw = "" => by rw [hh] at ht1; exact absurd ht1 (by decide)),
    if_neg (fun hor : (py_strip tokRaw).length < 8 ∨ 200 < (py_strip tokRaw).length =>
      hor.elim (fun hlt => absurd ht1 (not_le.mpr hlt)) (fun hgt => absurd ht2 (not_le.mpr hgt))),
    if_pos hdct, hens]

/-- Witness for C1 at a concrete reachable state: the state holds alice's
thought of 2025-06-01, and a second create with the same token that day is
rejected with 409 and changes nothing. -/
theorem c1_witness :
    dupCount stAfterCreate "tokentok12" "2025-06-01" ≤ 1 ∧
    create_thought stAfterCreate clockJune1 "bob" "again" "tokentok12" "etok2" =
      (.duplicate, stAfterCreate) := by
  have hc := c1_at_most_one_per_token_day reachable_stAfterCreate "tokentok12" "2025-06-01"
  refine ⟨hc.1, ?_⟩
  apply hc.2 clockJune1 "bob" "again" "tokentok12" "etok2"
  · refine ⟨{ id := 1, username := "alice", thought_text := "hi",
              created_at := .vStr "2025-06-01 10:00:00", edit_token := some "etok1",
              updated_at := none, token := some "tokentok12" }, ?_, ?_, ?_⟩
    · decide
    · decide
    · decide
  · decide
  · rfl
  · decide
  · decide
  · decide
  · decide
  · decide
  · decide

/-- C5: delete with the correct edit token succeeds, removes the id from
every subsequent listing, and a fresh create by the same owner token on the
same UTC day succeeds (201) instead of DuplicateSubmission: the daily slot is
freed immediately. -/
theorem c5_delete_frees_daily_slot {st : SchemaState} (h : Reachable st)
    (tid : Nat) (provided : String) (r : ThoughtRow)
    (hne : provided ≠ "") (hprov : py_strip provided = provided)
    (hfind : st.thoughts.find? (fun row => decide (row.id = tid)) = some r)
    (hauth : r.edit_token = some provided)
    (tok day : String) (htok : r.token = some tok) (hday : sqlite_date r.created_at = some day) :
    (delete_thought st tid (some provided) none).1 = .noContent ∧
    (∀ o ∈ list_thoughts (delete_thought st tid (some provided) none).2, o.id ≠ tid) ∧
    (∀ (c : Clock) (u x tokRaw etok : String),
      py_strip tokRaw = tok → c.checkDay = day →
      py_strip u ≠ "" → (py_strip u).length ≤ 50 →
      py_strip x ≠ "" → (py_strip x).length ≤ 500 →
      8 ≤ (py_strip tokRaw).length → (py_strip tokRaw).length ≤ 200 →
      (create_thought (delete_thought st tid (some provided) none).2
        c u x tokRaw etok).1.isSuccess = true) := by
  have hens := reachable_ensure_eq h
  have hfind' : (_ensure_schema st).thoughts.find? (fun row => decide (row.id = tid)) = some r := by
    rw [hens]
    exact hfind
  have hdel := delete_success st tid provided r hne hprov hfind' hauth
  have hstate : (delete_thought st tid (some provided) none).2 =
      { _ensure_schema st with
        thoughts := (_ensure_schema st).thoughts.filter fun rr => decide (rr.id ≠ tid) } := by
    rw [hdel]
  have hrmem : r ∈ st.thoughts := List.mem_of_find?_eq_some hfind
  have hrid : r.id = tid := by
    have := List.find?_some hfind
    simpa using this
  refine ⟨by rw [hdel], ?_, ?_⟩
  · intro o ho
    rw [hstate, list_thoughts, ensure_thoughts_of_table _ rfl] at ho
    obtain ⟨rr, hrr, hor⟩ := List.mem_map.mp ho
    rw [mem_sort_by] at hrr
    have hfil := List.mem_filter.mp hrr
    rw [← hor, row_out_id]
    simpa using hfil.2
  · intro c u x tokRaw etok htokeq hdayeq hu1 hu2 hx1 hx2 ht1 ht2
    rw [hstate]
    apply create_success_shape _ c u x tokRaw etok hu1 hu2 hx1 hx2 ht1 ht2
    rw [ensure_thoughts_of_table _ rfl]
    by_contra hdc
    rw [Bool.not_eq_false, dup_check_iff] at hdc
    obtain ⟨r2, hr2mem, hr2tok, hr2day⟩ := hdc
    have hfil := List.mem_filter.mp hr2mem
    have hr2id : r2.id ≠ tid := by simpa using hfil.2
    have hr2st : r2 ∈ (_ensure_schema st).thoughts := hfil.1
    rw [hens] at hr2st
    have hne2 : r2 ≠ r := fun hcon => hr2id (by rw [hcon, hrid])
    have h2le : 2 ≤ st.thoughts.countP
        (fun rr => decide (rr.token = some tok) && decide (sqlite_date rr.created_at = some day)) := by
      apply two_le_countP hr2st hrmem hne2
      · simp [hr2tok, htokeq, hr2day, hdayeq]
      · simp [htok, hday]
    have hle1 := dupCount_le_one h tok day
    rw [dupCount] at hle1
    omega

/-- Witness for C5: delete alice's thought with its edit token, observe the
empty listing, then create again with the same token on the same day and
receive 201. -/
theorem c5_witness :
    (delete_thought stAfterCreate 1 (some "etok1") none).1 = .noContent ∧
    (∀ o ∈ list_thoughts stAfterDelete, o.id ≠ 1) ∧
    (create_thought stAfterDelete clockJune1 "alice" "again" "tokentok12" "etok2").1.isSuccess
      = true := by
  have hc := c5_delete_frees_daily_slot reachable_stAfterCreate 1 "etok1"
    { id := 1, username := "alice", thought_text := "hi",
      created_at := .vStr "2025-06-01 10:00:00", edit_token := some "etok1",
      updated_at := none, token := some "tokentok12" }
    (by decide) (by decide) (by decide) (by decide) "tokentok12" "2025-06-01"
    (by decide) (by decide)
  refine ⟨hc.1, hc.2.1, ?_⟩
  exact hc.2.2 clockJune1 "alice" "again" "tokentok12" "etok2"
    (by decide) rfl (by decide) (by decide) (by decide) (by decide) (by decide) (by decide)

/-- C7: running `_ensure_schema` twice, or once against a database of the
older generation (rows lacking edit_token, updated_at, token columns, or the
guard table), is idempotent and never destructive: every pre-existing row,
the AUTOINCREMENT counter and the guard rows survive, and every missing
column, table and index is present afterwards.  `upgrade_database` from
init_db.py is the same operation. -/
theorem c7_ensure_schema_idempotent_nondestructive (s : SchemaState) :
    _ensure_schema (_ensure_schema s) = _ensure_schema s ∧
    (s.thoughtsTable = true →
      (_ensure_schema s).thoughts = s.thoughts ∧ (_ensure_schema s).nextId = s.nextId) ∧
    (s.guardTable = true → (_ensure_schema s).guard = s.guard) ∧
    AllFlags (_ensure_schema s) ∧
    upgrade_database s = _ensure_schema s := by
  refine ⟨ensure_eq_of_allFlags _ (allFlags_ensure s), ?_, ?_, allFlags_ensure s, rfl⟩
  · intro h
    exact ⟨by simp [_ensure_schema, h], by simp [_ensure_schema, h]⟩
  · intro h
    simp [_ensure_schema, h]

/-- C8: the maintenance route, modelled from the spec because only its client
is among the files under src, performs `clearAll` (emptying both the thoughts
and the guard tables) exactly when the operator flag is set, and rejects the
call leaving the state untouched otherwise. -/
theorem c8_clear_route_flag_gated (st : SchemaState) (flag : Bool) :
    (flag = true → admin_clear_thoughts flag st = (.ok, clearAll st) ∧
      (clearAll st).thoughts = [] ∧ (clearAll st).guard = []) ∧
    (flag = false → admin_clear_thoughts flag st = (.rejected, st)) := by
  constructor
  · intro h
    subst h
    exact ⟨rfl, rfl, rfl⟩
  · intro h
    subst h
    rfl

/-- A legacy row created by the older schema generation: NULL edit_token and
token columns, and a created_at value no ISO parser accepts. -/
def legacyRow : ThoughtRow :=
  { id := 7, username := "old", thought_text := "legacy",
    created_at := .vStr "garbage-ts", edit_token := none, updated_at := none, token := none }

/-- An upgraded database still holding one legacy row. -/
def legacySt : SchemaState := { initState with thoughts := [legacyRow], nextId := 8 }

/-- C9: a stored row whose edit_token column is NULL can never be mutated or
removed through the API: update and delete answer Forbidden (403) both for a
missing credential and for every provided one, and the thoughts table is left
unchanged. -/
theorem c9_null_edit_token_rows_immutable (st : SchemaState) (tid : Nat) (r : ThoughtRow)
    (hTable : st.thoughtsTable = true)
    (hfind : st.thoughts.find? (fun row => decide (row.id = tid)) = some r)
    (hnull : r.edit_token = none)
    (x q : Option String) (txt nowTs : String)
    (htxt1 : py_strip txt ≠ "") (htxt2 : (py_strip txt).length ≤ 500) :
    (update_thought st tid txt x q nowTs).1.isForbidden = true ∧
    ((update_thought st tid txt x q nowTs).2).thoughts = st.thoughts ∧
    (delete_thought st tid x q).1.isForbidden = true ∧
    ((delete_thought st tid x q).2).thoughts = st.thoughts := by
  have henst : (_ensure_schema st).thoughts = st.thoughts := ensure_thoughts_of_table st hTable
  have hfind' : (_ensure_schema st).thoughts.find? (fun row => decide (row.id = tid)) = some r := by
    rw [henst]
    exact hfind
  by_cases hp : py_strip (py_or x q) = ""
  · refine ⟨?_, ?_, ?_, ?_⟩ <;>
      simp [update_thought, delete_thought, hp, UpdateResult.isForbidden, DeleteResult.isForbidden]
  · have hneq : r.edit_token ≠ some (py_strip (py_or x q)) := by
      rw [hnull]
      exact fun hcon => Option.noConfusion hcon
    refine ⟨?_, ?_, ?_, ?_⟩ <;>
      simp [update_thought, delete_thought, hp, htxt1, not_lt.mpr htxt2, hfind, hfind', hnull,
        hneq, henst, UpdateResult.isForbidden, DeleteResult.isForbidden]

/-- Witness for C9: the legacy row with NULL edit_token rejects an update and
a delete attempt carrying an arbitrary credential, leaving the table as it
was. -/
theorem c9_witness :
    (update_thought legacySt 7 "new text" (some "whatever") none "2025-06-01 10:00:00").1.isForbidden
      = true ∧
    ((update_thought legacySt 7 "new text" (some "whatever") none "2025-06-01 10:00:00").2).thoughts
      = legacySt.thoughts ∧
    (delete_thought legacySt 7 (some "whatever") none).1.isForbidden = true ∧
    ((delete_thought legacySt 7 (some "whatever") none).2).thoughts = legacySt.thoughts :=
  c9_null_edit_token_rows_immutable legacySt 7 legacyRow rfl (by decide) rfl
    (some "whatever") none "new text" "2025-06-01 10:00:00" (by decide) (by decide)

/-- The created_at value defeats the ISO parse performed by
`_row_to_thought_out`: a non-string value, or a string
`datetime.fromisoformat` rejects. -/
def created_at_unparseable : CreatedVal → Prop
  | .vStr s => py_fromisoformat_utc (py_replace_space_t s) = none
  | .vNull => True

/-- C10: the listing is total over every stored row: a row whose created_at
does not parse is still listed, its created_at rendered as the raw value
stringified verbatim, and the listing length always equals the number of
stored rows. -/
theorem c10_listing_total_and_verbatim (st : SchemaState) (r : ThoughtRow)
    (hmem : r ∈ (_ensure_schema st).thoughts) (hfail : created_at_unparseable r.created_at) :
    _row_to_thought_out r ∈ list_thoughts st ∧
    (_row_to_thought_out r).created_at = py_str r.created_at ∧
    (list_thoughts st).length = (_ensure_schema st).thoughts.length := by
  refine ⟨?_, ?_, ?_⟩
  · rw [list_thoughts]
    exact List.mem_map_of_mem _ (mem_sort_by.mpr hmem)
  · cases hcr : r.created_at with
    | vNull => simp [_row_to_thought_out, hcr, py_str]
    | vStr s =>
        rw [hcr] at hfail
        simp only [created_at_unparseable] at hfail
        simp [_row_to_thought_out, hcr, hfail, py_str]
  · rw [list_thoughts, List.length_map, length_sort_by]

/-- Witness for C10: the legacy row with created_at "garbage-ts" is listed
verbatim and the listing covers the whole table. -/
theorem c10_witness :
    _row_to_thought_out legacyRow ∈ list_thoughts legacySt ∧
    (_row_to_thought_out legacyRow).created_at = py_str legacyRow.created_at ∧
    (list_thoughts legacySt).length = (_ensure_schema legacySt).thoughts.length :=
  c10_listing_total_and_verbatim legacySt legacyRow (by decide)
    (show py_fromisoformat_utc (py_replace_space_t "garbage-ts") = none by decide)

/-- C4: evaluation of the code at the failing input.  After creating alice's
thought (id 1) and deleting it with its correct edit token, the thoughts
table is empty yet the DailyClaim guard row for (tokentok12, 2025-06-01)
still exists and references the removed id: `delete_thought` issues no delete
against `thought_token_guard`, contradicting the claim that delete removes
the associated claim and leaves no orphan. -/
theorem c4_delete_orphans_guard_row :
    (delete_thought stAfterCreate 1 (some "etok1") none).1 = .noContent ∧
    stAfterDelete.thoughts = [] ∧
    stAfterDelete.guard =
      [{ thought_id := 1, token := "tokentok12", day_key := "2025-06-01" }] := by
  decide

/-- C2: evaluation of the code at the failing input.  With the stale guard
row left behind by the delete, a second create with the same token on the
same UTC day hits the UNIQUE(token, day_key) violation on the guard insert,
yet `INSERT OR IGNORE` swallows it: the call reports 201 success, the new
thought (id 2) is committed, and no guard row for id 2 exists - a silent
success with a missing guard row, not a DuplicateSubmission error and not a
transactional failure of both writes. -/
theorem c2_guard_violation_silent_success :
    (create_thought stAfterDelete clockJune1 "alice" "again" "tokentok12" "etok2").1.isSuccess
      = true ∧
    ((create_thought stAfterDelete clockJune1 "alice" "again" "tokentok12" "etok2").2.thoughts.map
      fun r => r.id) = [2] ∧
    ((create_thought stAfterDelete clockJune1 "alice" "again" "tokentok12" "etok2").2.guard.all
      fun g => decide (g.thought_id ≠ 2)) = true := by
  decide

/-- The first racer of the concurrent scenario: its duplicate pre-check ran
against the initial state, then its insert phase committed. -/
def racerA : Nat × SchemaState :=
  insert_phase initState clockJune1 "alice" "hi" "tokentok12" "etokA"

/-- The second racer: its duplicate pre-check also ran against the initial
state (before racer A committed), then its insert phase committed after
racer A's. -/
def racerB : Nat × SchemaState :=
  insert_phase racerA.2 clockJune1 "bob" "yo" "tokentok12" "etokB"

/-- C3: evaluation of the code at the failing interleaving.  Both racers pass
the SELECT pre-check against the same initial state (it is false there), both
insert phases commit - the second guard insert violates
UNIQUE(token, day_key) but `INSERT OR IGNORE` discards it instead of aborting
- and both requests return 201.  The final state stores two thoughts for
(tokentok12, 2025-06-01): the storage-level constraint never arbitrates, and
the claim that exactly one concurrent create can succeed fails. -/
theorem c3_concurrent_race_two_successes :
    dup_check initState.thoughts "tokentok12" clockJune1.checkDay = false ∧
    (fetch_created racerA.2 racerA.1 "etokA").isSuccess = true ∧
    (fetch_created racerB.2 racerB.1 "etokB").isSuccess = true ∧
    dupCount racerB.2 "tokentok12" "2025-06-01" = 2 ∧
    (racerB.2.guard.map fun g => g.thought_id) = [1] := by
  decide

/-- The clock reads of a create request straddling UTC midnight: SQLite
evaluates `date('now')` and `CURRENT_TIMESTAMP` just before midnight, the
Python `datetime.utcnow()` read in `_day_key_utc_now` lands just after. -/
def clockMidnight : Clock :=
  { checkDay := "2025-06-01", insertTs := "2025-06-01 23:59:59", pyDay := "2025-06-02" }

/-- C6: evaluation of the code at the failing input.  Within a single create
request the committed thought carries day 2025-06-01 (from the SQLite clock)
while its own guard row carries day_key 2025-06-02 (from the separate Python
`datetime.utcnow()` read in `_day_key_utc_now`): the three day values of one
request come from three independent clock reads, not from one function
applied to one clock read as the claim states. -/
theorem c6_guard_day_key_disagrees_with_row :
    (create_thought initState clockMidnight "alice" "hi" "tokentok12" "etok1").1.isSuccess
      = true ∧
    ((create_thought initState clockMidnight "alice" "hi" "tokentok12" "etok1").2.thoughts.map
      fun r => sqlite_date r.created_at) = [some "2025-06-01"] ∧
    ((create_thought initState clockMidnight "alice" "hi" "tokentok12" "etok1").2.guard.map
      fun g => g.day_key) = ["2025-06-02"] ∧
    _day_key_utc_now clockMidnight ≠ clockMidnight.checkDay := by
  decide

end ThoughtChain
